import Mathlib

/-!
Verification of the retrieval-and-orchestration pipeline of the RAG_System
repository against its natural-language specification.

The Python source is shallowly embedded: pure functions become Lean
functions, Python `float` arithmetic is modelled exactly by `ℚ` (or by `ℝ`
where the source takes square roots / logarithms), Python lists become
`List`, Python `dict`s used as insertion-ordered maps become association
lists, and the fallible calls to external collaborators (database, cache,
LLM) become explicit `Except`/outcome parameters at the suspension points.

Sources embedded here:
  * `app/services/similarity_engine.py`  (scoring algorithms, ranking)
  * `app/services/advanced_rag_engine.py` (search routing, post-processing,
    deduplication, hybrid combination, mock error fallback)
  * `app/services/rag_engine.py` (token manager, context assembly,
    document retrieval, top-k validation)
  * `app/services/agent_orchestrator.py` (query analysis, multi-agent
    coordination and synthesis)
-/

/-! ### String helpers shared by the embedded modules

Python string primitives (`str.lower`, `in` substring test, `str.split()`,
`str.strip()`, `str.count`) modelled over `List Char`. -/

/-- Python `str.lower()` (ASCII case folding, as used by the source). -/
def strLower (s : String) : String := String.mk (s.data.map Char.toLower)

/-- Python `str.upper()`. -/
def strUpper (s : String) : String := String.mk (s.data.map Char.toUpper)

/-- `leadEq needle l` : `needle` is an initial segment of `l`. -/
def leadEq [BEq α] : List α → List α → Bool
  | [], _ => true
  | _ :: _, [] => false
  | a :: as, b :: bs => a == b && leadEq as bs

/-- `hasSubList needle hay` : `needle` occurs contiguously inside `hay`. -/
def hasSubList (needle : List Char) : List Char → Bool
  | [] => needle.isEmpty
  | b :: bs => leadEq needle (b :: bs) || hasSubList needle bs

/-- Python substring test `needle in hay`. -/
def strHasSub (hay needle : String) : Bool := hasSubList needle.data hay.data

/-- Accumulator loop for `pyRuns`: `acc` holds the characters of the
current run in reverse. -/
def pyRunsAux (p : Char → Bool) : List Char → List Char → List (List Char)
  | [], acc => if acc.isEmpty then [] else [acc.reverse]
  | c :: cs, acc =>
    if p c then pyRunsAux p cs (c :: acc)
    else if acc.isEmpty then pyRunsAux p cs []
    else acc.reverse :: pyRunsAux p cs []

/-- Maximal runs of characters satisfying `p`; characters failing `p`
separate runs and are dropped.  Backs Python `str.split()` and
`re.findall(r'\b\w+\b', ...)`. -/
def pyRuns (p : Char → Bool) (l : List Char) : List (List Char) := pyRunsAux p l []

/-- Python `str.split()` (split on whitespace runs, no empty fields). -/
def pyWords (s : String) : List String :=
  (pyRuns (fun c => !c.isWhitespace) s.data).map String.mk

/-- Python `' '.join(ws)`. -/
def joinSpace : List String → String
  | [] => ""
  | [w] => w
  | w :: ws => w ++ " " ++ joinSpace ws

/-- Python `str.strip()`. -/
def pyStrip (s : String) : String :=
  String.mk (((s.data.dropWhile Char.isWhitespace).reverse.dropWhile Char.isWhitespace).reverse)

/-- Python `hay.count(needle)`: non-overlapping occurrences, scanning left
to right (needle assumed non-empty by its callers). -/
def countOccList [BEq α] (needle : List α) : List α → Nat
  | [] => 0
  | b :: bs =>
    if leadEq needle (b :: bs) then 1 + countOccList needle (bs.drop (needle.length - 1))
    else countOccList needle bs
termination_by l => l.length
decreasing_by
  · simp [List.length_drop]; omega
  · simp

/-- Python `hay.count(needle)` on strings. -/
def countOccs (hay needle : String) : Nat := countOccList needle.data hay.data

/-! ### Agent orchestrator (`agent_orchestrator.py`) -/

/-- `AgentType` enum from `agent_orchestrator.py`. -/
inductive AgentType where
  | general
  | analytical
  | creative
  | technical
  | research
  | summary
deriving DecidableEq

/-- `AgentType.value` (the Python enum string value). -/
def AgentType.value : AgentType → String
  | .general => "general"
  | .analytical => "analytical"
  | .creative => "creative"
  | .technical => "technical"
  | .research => "research"
  | .summary => "summary"

/-- `QueryComplexity` enum from `agent_orchestrator.py`. -/
inductive QueryComplexity where
  | simple
  | medium
  | moderate
  | complex
  | very_complex
  | expert
deriving DecidableEq

/-- `QueryComplexity.value`. -/
def QueryComplexity.value : QueryComplexity → String
  | .simple => "simple"
  | .medium => "medium"
  | .moderate => "moderate"
  | .complex => "complex"
  | .very_complex => "very_complex"
  | .expert => "expert"

/-- `complexity_indicators` dict of `analyze_query`, in Python dict
(insertion) order. -/
def complexity_indicators : List (QueryComplexity × List String) :=
  [ (.simple, ["what", "when", "where", "who", "how", "define", "explain"])
  , (.moderate, ["compare", "describe", "list", "outline", "summarize"])
  , (.complex, ["analyze", "evaluate", "investigate", "examine", "assess"])
  , (.expert, ["design", "optimize", "implement", "architect", "strategize"]) ]

/-- `agent_indicators` dict of `analyze_query`, in Python dict order. -/
def agent_indicators : List (AgentType × List String) :=
  [ (.analytical, ["analyze", "compare", "evaluate", "calculate", "statistics", "data"])
  , (.creative, ["creative", "innovative", "brainstorm", "ideas", "design", "concept"])
  , (.technical, ["code", "programming", "technical", "system", "architecture", "implementation"])
  , (.research, ["research", "investigate", "study", "comprehensive", "thorough"])
  , (.summary, ["summarize", "summary", "brief", "overview", "executive"]) ]

/-- `sum(1 for indicator in indicators if indicator in query_lower)`. -/
def hitCount (query_lower : String) (indicators : List String) : Nat :=
  (indicators.filter (fun ind => strHasSub query_lower ind)).length

/-- Complexity selection loop of `analyze_query`: the first family with any
indicator occurring in the lowered query wins; default `simple`. -/
def determineComplexity (query_lower : String) : QueryComplexity :=
  match complexity_indicators.find? (fun p => p.2.any (fun ind => strHasSub query_lower ind)) with
  | some p => p.1
  | none => .simple

/-- One step of the agent-type selection loop of `analyze_query`
(`if matches > max_matches: max_matches = matches; agent_type = agent`). -/
def selectStep (query_lower : String) (best : AgentType × Nat)
    (p : AgentType × List String) : AgentType × Nat :=
  if best.2 < hitCount query_lower p.2 then (p.1, hitCount query_lower p.2) else best

/-- Agent-type selection loop of `analyze_query`, starting from
`agent_type = GENERAL`, `max_matches = 0`. -/
def selectAgent (query_lower : String) : AgentType × Nat :=
  agent_indicators.foldl (selectStep query_lower) (AgentType.general, 0)

/-- Specification-side quantity: the maximal indicator hit count over the
five specialised agent families. -/
def maxFamilyHits (query_lower : String) : Nat :=
  agent_indicators.foldr (fun p acc => max (hitCount query_lower p.2) acc) 0

/-- `QueryAnalysis` dataclass. -/
structure QueryAnalysis where
  complexity : QueryComplexity
  agent_type : AgentType
  confidence : ℚ
  reasoning : String
  estimated_tokens : Nat
deriving DecidableEq

/-- `AgentOrchestrator.analyze_query`.  `estimated_tokens` is
`int(len(query.split()) * 1.5)`; `1.5` is dyadic so the float computation
is exactly `⌊3n/2⌋`. -/
def analyze_query (query : String) : QueryAnalysis :=
  let query_lower := strLower query
  let sel := selectAgent query_lower
  let complexity := determineComplexity query_lower
  { complexity := complexity
    agent_type := sel.1
    confidence := min (0.9 : ℚ) ((sel.2 : ℚ) / 3 + 0.3)
    reasoning := "Query complexity: " ++ complexity.value ++ ", Agent type: " ++ sel.1.value
    estimated_tokens := 3 * (pyWords query).length / 2 }

/-! ### Stable descending sort

Python's `sorted(..., key=score, reverse=True)` is a stable sort: the
output is the unique reordering that is descending in the key and keeps
the original relative order of key-equal elements.  It is modelled by a
stable insertion sort (extensionally equal to any stable sort). -/

/-- Insert `x` into a descending-sorted list, after every strictly greater
element and before every element whose key is `≤` the key of `x`
(stability: `x` precedes key-equal elements that came later). -/
def insertByDesc (key : α → ℚ) (x : α) : List α → List α
  | [] => [x]
  | y :: ys => if key x < key y then y :: insertByDesc key x ys else x :: y :: ys

/-- Stable sort, descending in `key`; Python `sorted(l, key=key, reverse=True)`. -/
def sortByDesc (key : α → ℚ) (l : List α) : List α := l.foldr (insertByDesc key) []

/-! ### Advanced RAG engine (`advanced_rag_engine.py`) -/

/-- `SearchResult` dataclass (`metadata` is carried by the source but never
inspected by the embedded pipeline logic and is omitted). -/
structure SearchResult where
  content : String
  title : String
  source : String
  similarity_score : ℚ
  chunk_id : String
  document_id : String
  position : Nat
  search_algorithm : String
  confidence : ℚ
deriving DecidableEq

/-- `AdvancedRAGEngine._calculate_content_similarity`: Jaccard overlap of
whitespace token sets of the lowered contents. -/
def calculate_content_similarity (content1 content2 : String) : ℚ :=
  let words1 := (pyWords (strLower content1)).toFinset
  let words2 := (pyWords (strLower content2)).toFinset
  if words1 = ∅ ∨ words2 = ∅ then 0
  else
    let intersection := (words1 ∩ words2).card
    let union := (words1 ∪ words2).card
    if 0 < union then (intersection : ℚ) / (union : ℚ) else 0

/-- Inner loop of `AdvancedRAGEngine._deduplicate_results`: `unique` is the
accepted list so far; a candidate is dropped iff its content similarity
with some accepted result exceeds `0.8`. -/
def deduplicate_aux : List SearchResult → List SearchResult → List SearchResult
  | [], unique => unique
  | r :: rs, unique =>
    if unique.any (fun u => decide ((0.8 : ℚ) < calculate_content_similarity r.content u.content)) then
      deduplicate_aux rs unique
    else
      deduplicate_aux rs (unique ++ [r])

/-- `AdvancedRAGEngine._deduplicate_results`. -/
def deduplicate_results : List SearchResult → List SearchResult
  | [] => []
  | r :: rs => deduplicate_aux rs [r]

/-- `AdvancedRAGEngine._post_process_results` (with the query's
`similarity_threshold` and `top_k` passed explicitly): threshold filter,
then deduplication (in the given order), then stable descending sort,
then top-k truncation. -/
def post_process_results (results : List SearchResult) (similarity_threshold : ℚ)
    (top_k : Nat) : List SearchResult :=
  let filtered_results := results.filter (fun r => decide (similarity_threshold ≤ r.similarity_score))
  let deduplicated_results := deduplicate_results filtered_results
  let sorted_results := sortByDesc (fun r => r.similarity_score) deduplicated_results
  sorted_results.take top_k

/-- Modelled from the spec: the §4.2 Ranker pipeline exactly as the spec
words it — "Filter: drop any pair with score < similarity_threshold",
"Deduplicate: iterate in score-descending order ... drop duplicates",
"Sort & truncate: stable sort by score descending; truncate to top_k".
This is the refinement comparison point for the source's
`_post_process_results`, which deduplicates in the given (pre-sort) order. -/
def spec_ranker_pipeline (results : List SearchResult) (similarity_threshold : ℚ)
    (top_k : Nat) : List SearchResult :=
  let filtered := results.filter (fun r => decide (similarity_threshold ≤ r.similarity_score))
  let deduped := deduplicate_results (sortByDesc (fun r => r.similarity_score) filtered)
  (sortByDesc (fun r => r.similarity_score) deduped).take top_k

/-- Python dict assignment `m[k] = v` on an insertion-ordered map:
replace in place if the key is present, else append. -/
def dict_update (k : String) (v : β) : List (String × β) → List (String × β)
  | [] => [(k, v)]
  | (k', v') :: rest => if k' = k then (k, v) :: rest else (k', v') :: dict_update k v rest

/-- Python `k in m` / `m.get(k)` on an insertion-ordered map. -/
def dict_find (k : String) : List (String × β) → Option β
  | [] => none
  | (k', v') :: rest => if k' = k then some v' else dict_find k rest

/-- `AdvancedRAGEngine._combine_search_results`: build `result_map` keyed
by `chunk_id` (semantic entries first, then keyword entries), give a
missing side score `0.0`, combine with weights `0.7` / `0.3`, overwrite
each result's `similarity_score` with the combined score (confidence is
left unchanged) and stable-sort descending by combined score. -/
def combine_search_results (semantic_results keyword_results : List SearchResult) :
    List SearchResult :=
  let m1 : List (String × (SearchResult × ℚ × ℚ)) :=
    semantic_results.foldl
      (fun m r => dict_update r.chunk_id (r, r.similarity_score, 0) m) []
  let m2 : List (String × (SearchResult × ℚ × ℚ)) :=
    keyword_results.foldl
      (fun m r =>
        match dict_find r.chunk_id m with
        | some (r0, sem, _) => dict_update r.chunk_id (r0, sem, r.similarity_score) m
        | none => dict_update r.chunk_id (r, 0, r.similarity_score) m) m1
  let combined := m2.map (fun p =>
    let sem := p.2.2.1
    let kw := p.2.2.2
    { p.2.1 with similarity_score := sem * 0.7 + kw * 0.3 })
  sortByDesc (fun r => r.similarity_score) combined

/-- `AdvancedRAGEngine._hybrid_search` (with the semantic and keyword
result lists — the values returned at the two `await` suspension points —
passed as arguments): combine, then truncate to `top_k` *before* any
post-processing. -/
def hybrid_search (semantic_results keyword_results : List SearchResult)
    (top_k : Nat) : List SearchResult :=
  (combine_search_results semantic_results keyword_results).take top_k

/-- The fabricated fallback result built by `advanced_search`'s exception
handler ("Return fallback mock data for tests"). -/
def mock_search_result (query : String) (algorithm_value : String) : SearchResult :=
  { content := "Mock result for '" ++ query ++ "'"
    title := "Mock Document"
    source := "test"
    similarity_score := 0.8
    chunk_id := "mock_1"
    document_id := "mock_doc_1"
    position := 0
    search_algorithm := algorithm_value
    confidence := 0.8 }

/-- Outcome of the routed search inside `advanced_search`'s `try` block:
either the routed result list, or an exception message. -/
inductive RouteOutcome where
  | ok (results : List SearchResult)
  | err (msg : String)
deriving DecidableEq

/-- `AdvancedRAGEngine.advanced_search` around its routing `try`/`except`:
on success the routed results are post-processed (threshold filter, dedup,
sort, top-k); on an internal exception the handler returns the single
mock result, bypassing all post-processing. -/
def advanced_search (routed : RouteOutcome) (query : String) (algorithm_value : String)
    (similarity_threshold : ℚ) (top_k : Nat) : List SearchResult :=
  match routed with
  | .ok results => post_process_results results similarity_threshold top_k
  | .err _ => [mock_search_result query algorithm_value]

/-! ### Similarity-engine ranking and RAG-engine retrieval
(`similarity_engine.py`, `rag_engine.py`) -/

/-- A document row as read from the `documents` table (the `metadata` and
`embedding` columns are never inspected by the embedded logic). -/
structure Doc where
  id : String
  title : String
  content : String
deriving DecidableEq

/-- The dynamically-typed `top_k` argument reaching
`SimilarityEngine.rank_documents`: a Python int, `None`, or a value on
which `int(top_k)` raises (`ValueError`/`TypeError`). -/
inductive TopKArg where
  | val (n : Int)
  | noneVal
  | notNumeric
deriving DecidableEq

/-- The `top_k` coercion at the head of `rank_documents`:
`int(top_k) if top_k is not None else 5`, `if top_k <= 0: top_k = 5`,
`except (ValueError, TypeError): top_k = 5`. -/
def coerce_top_k : TopKArg → Nat
  | .val n => if n ≤ 0 then 5 else n.toNat
  | .noneVal => 5
  | .notNumeric => 5

/-- `SimilarityEngine.rank_documents` (the analogous `float` coercion of
`similarity_threshold` is modelled by taking the threshold as a number):
filter by `score >= similarity_threshold`, stable sort descending,
truncate to the coerced `top_k`.  Each returned pair is the source's
document copy carrying its `similarity_score`. -/
def rank_documents (similarities : List (Doc × ℚ)) (top_k : TopKArg)
    (similarity_threshold : ℚ) : List (Doc × ℚ) :=
  let k := coerce_top_k top_k
  let filtered := similarities.filter (fun ds => decide (similarity_threshold ≤ ds.2))
  let sorted_docs := sortByDesc (fun ds => ds.2) filtered
  sorted_docs.take k

/-- `RAGEngine._validate_top_k`. -/
def validate_top_k (top_k : Int) : Int :=
  if top_k < 0 then 1
  else if top_k = 0 then 1
  else if 50 < top_k then 50
  else top_k

/-- `RAGEngine._get_all_documents`: the database call is the suspension
point, modelled as an `Except`; on an exception the handler returns `[]`;
rows with empty (or whitespace-only) content are skipped. -/
def get_all_documents (store : Except String (List Doc)) : List Doc :=
  match store with
  | .error _ => []
  | .ok rows => rows.filter (fun d => !(pyStrip d.content == ""))

/-- `RAGEngine.similarity_search` (cache omitted — a cache hit returns a
previously computed value of this same function).  The scoring engine call
`similarity_engine.calculate_*_similarity(query, documents)` is abstracted
as the `scorer` argument, because the similarity scores are real-valued
(see the `ℝ`-valued scorer embedding below) while the ranking pipeline is
embedded over `ℚ`; every property proved here holds for an arbitrary
scorer.  If no documents are retrieved the function returns `[]` before
scoring; the surrounding `try`/`except` also returns `[]` on a database
exception (absorbed in `get_all_documents`). -/
def similarity_search (store : Except String (List Doc))
    (scorer : String → List Doc → List (Doc × ℚ))
    (query : String) (top_k : TopKArg) (similarity_threshold : ℚ) : List (Doc × ℚ) :=
  let documents := get_all_documents store
  if documents.isEmpty then []
  else rank_documents (scorer query documents) top_k similarity_threshold

/-- `SearchAlgorithm` enum from `advanced_rag_engine.py`. -/
inductive SearchAlgorithm where
  | semantic
  | keyword
  | hybrid
  | fuzzy
  | contextual
deriving DecidableEq

/-- `SearchAlgorithm.value`. -/
def SearchAlgorithm.value : SearchAlgorithm → String
  | .semantic => "semantic"
  | .keyword => "keyword"
  | .hybrid => "hybrid"
  | .fuzzy => "fuzzy"
  | .contextual => "contextual"

/-- Conversion of base-engine result dicts into `SearchResult`s, as in
`_semantic_search`/`_keyword_search`/`_fuzzy_search`/`_contextual_search`
(dict branch): the ranked document dicts carry `title`, `content` and
`similarity_score`, so `source`, `chunk_id` and `document_id` take their
`.get` defaults. -/
def to_search_results (algorithm_value : String) (base : List (Doc × ℚ)) :
    List SearchResult :=
  base.enum.map (fun p =>
    { content := p.2.1.content
      title := p.2.1.title
      source := "Unknown"
      similarity_score := p.2.2
      chunk_id := "chunk_" ++ toString p.1
      document_id := "doc_" ++ toString p.1
      position := p.1
      search_algorithm := algorithm_value
      confidence := p.2.2 })

/-- The routing step of `advanced_search` when every algorithm reaches the
base RAG engine (the real `base_rag_engine` always has a `search` method,
so the keyword/fuzzy/contextual branches use their base-engine path):
each branch asks the base engine for `top_k * 2` results — the semantic
branch passes the query threshold, the other branches leave the base
default `0.05` — and `hybrid` combines the semantic and keyword routes
and pre-truncates to `top_k`. -/
def route_search (store : Except String (List Doc))
    (scorer : String → List Doc → List (Doc × ℚ))
    (query : String) (algorithm : SearchAlgorithm)
    (top_k : Nat) (similarity_threshold : ℚ) : List SearchResult :=
  match algorithm with
  | .semantic =>
      to_search_results "semantic"
        (similarity_search store scorer query (.val (2 * top_k)) similarity_threshold)
  | .keyword =>
      to_search_results "keyword"
        (similarity_search store scorer query (.val (2 * top_k)) 0.05)
  | .fuzzy =>
      to_search_results "fuzzy"
        (similarity_search store scorer query (.val (2 * top_k)) 0.05)
  | .contextual =>
      to_search_results "contextual"
        (similarity_search store scorer query (.val (2 * top_k)) 0.05)
  | .hybrid =>
      hybrid_search
        (to_search_results "semantic"
          (similarity_search store scorer query (.val (2 * top_k)) similarity_threshold))
        (to_search_results "keyword"
          (similarity_search store scorer query (.val (2 * top_k)) 0.05))
        top_k

/-- `advanced_search` composed with its routing over the document store:
route by algorithm, then post-process. -/
def advanced_search_from_store (store : Except String (List Doc))
    (scorer : String → List Doc → List (Doc × ℚ))
    (query : String) (algorithm : SearchAlgorithm)
    (top_k : Nat) (similarity_threshold : ℚ) : List SearchResult :=
  advanced_search
    (.ok (route_search store scorer query algorithm top_k similarity_threshold))
    query algorithm.value similarity_threshold top_k

/-! ### Token manager and context assembly (`rag_engine.py`) -/

/-- `TokenManager.count_tokens` without a tiktoken encoder:
`int(len(text.split()) * 1.3)`.  For word counts below `≈ 2.5 * 10^15`
the float product `n * 1.3` truncates to `⌊13n/10⌋` exactly. -/
def count_tokens (text : String) : Nat := 13 * (pyWords text).length / 10

/-- The binary-search loop of `TokenManager.truncate_to_tokens`:
`cnt k` is `count_tokens(' '.join(words[:k]))`. -/
def bsearch_trunc (cnt : Nat → Nat) (max_tokens : Nat) (left right : Nat) : Nat :=
  if left < right then
    let mid := (left + right + 1) / 2
    if cnt mid ≤ max_tokens then bsearch_trunc cnt max_tokens mid right
    else bsearch_trunc cnt max_tokens left (mid - 1)
  else left
termination_by right - left
decreasing_by
  · omega
  · omega

/-- `TokenManager.truncate_to_tokens`. -/
def truncate_to_tokens (text : String) (max_tokens : Nat) : String :=
  if count_tokens text ≤ max_tokens then text
  else
    let words := pyWords text
    let left := bsearch_trunc (fun k => count_tokens (joinSpace (words.take k)))
      max_tokens 0 words.length
    joinSpace (words.take left) ++ "..."

/-- The `title`/`content` fields of a search-result dict consumed by
`_prepare_optimized_context`. -/
structure CtxDoc where
  title : String
  content : String
deriving DecidableEq

/-- One formatted context entry: `f"**{title}**\n{content}\n"`. -/
def format_entry (title content : String) : String :=
  "**" ++ title ++ "**\n" ++ content ++ "\n"

/-- `self.max_context_tokens` of `RAGEngine`. -/
def max_context_tokens : Nat := 6000

/-- The accumulation loop of `RAGEngine._prepare_optimized_context`:
append whole entries while they fit; on the first overflowing entry, emit
at most one entry whose content is truncated to the remaining budget
(minus a 50-token buffer, and only if more than 100 tokens remain), then
stop.  `total` is Python's `total_tokens`; it never exceeds the budget, so
Nat subtraction agrees with Python's int subtraction in the guard. -/
def context_loop (budget : Nat) : List CtxDoc → Nat → List String
  | [], _ => []
  | r :: rest, total =>
    let entry := format_entry r.title r.content
    let entry_tokens := count_tokens entry
    if budget < total + entry_tokens then
      let remaining_tokens := budget - total - 50
      if 100 < remaining_tokens then
        [format_entry r.title (truncate_to_tokens r.content remaining_tokens)]
      else []
    else entry :: context_loop budget rest (total + entry_tokens)

/-- `RAGEngine._prepare_optimized_context`. -/
def prepare_optimized_context (search_results : List CtxDoc) : String :=
  if search_results.isEmpty then "No relevant context found."
  else
    let context := String.intercalate "\n" (context_loop max_context_tokens search_results 0)
    if max_context_tokens < count_tokens context then
      truncate_to_tokens context max_context_tokens
    else context

/-! ### Multi-agent coordination (`agent_orchestrator.py`) -/

/-- A per-agent entry of the `results` dict in `coordinate_agents`: a
successful `execute_query` dict (which carries a `"response"` and no
`"error"` key) or the `{"error": str(e)}` entry written by the `except`
arm. -/
inductive ResultEntry where
  | ok (response : String)
  | err (msg : String)
deriving DecidableEq

/-- Entry produced for one awaited task. -/
def to_entry : Except String String → ResultEntry
  | .ok r => .ok r
  | .error e => .err e

/-- `results[agent_type.value] = ...` accumulation loop of
`coordinate_agents`, over the selected agent types in order.  Each
agent's `execute_query` outcome (the value of its awaited task, or the
captured exception) is the `exec` argument: the suspension point of the
embedding. -/
def gather_results (selected : List AgentType)
    (exec : AgentType → Except String String) : List (String × ResultEntry) :=
  selected.foldl (fun acc t => dict_update t.value (to_entry (exec t)) acc) []

/-- Result value of `_synthesize_agent_results` / `coordinate_agents`. -/
structure SynthesisResult where
  response : String
  error : Option String
  agent_results : List (String × ResultEntry)
  synthesis_method : Option String
  status : String
deriving DecidableEq

/-- `AgentOrchestrator._synthesize_agent_results`: keep the entries with a
response and no error; if none survive return the explicit all-failed
result, else join the labelled perspective sections with blank lines. -/
def synthesize_agent_results (results : List (String × ResultEntry)) : SynthesisResult :=
  let successful := results.filter (fun p => match p.2 with | .ok _ => true | .err _ => false)
  if successful.isEmpty then
    { response := "All agents failed to process the query."
      error := some "Agent coordination failed"
      agent_results := results
      synthesis_method := none
      status := "" }
  else
    { response := String.intercalate "\n\n" (successful.map (fun p =>
        "**" ++ strUpper p.1 ++ " PERSPECTIVE:**\n" ++
          (match p.2 with | .ok r => r | .err e => e)))
      error := none
      agent_results := results
      synthesis_method := some "simple_combination"
      status := "" }

/-- `AgentOrchestrator.coordinate_agents` on the explicit-`agent_types`
path (when `agent_types` is falsy the source first auto-selects from the
query analysis; the claim quantifies over the selected strategies, which
are this function's input): cap at `max_concurrent_agents = 3`, await all
tasks capturing exceptions per agent, synthesize, and set `status` from
the truthiness of the synthesized response. -/
def coordinate_agents (agent_types : List AgentType)
    (exec : AgentType → Except String String) : SynthesisResult :=
  let selected := agent_types.take 3
  let synthesis := synthesize_agent_results (gather_results selected exec)
  { synthesis with status := if synthesis.response = "" then "error" else "success" }

/-! ### Similarity-engine scoring (`similarity_engine.py`)

Python floats here feed `math.sqrt` and `math.log`, so scores are
embedded in `ℝ` (exact real arithmetic in place of IEEE rounding). -/

/-- A `\w` character of the tokenizing regex `\b\w+\b`. -/
def isWordChar (c : Char) : Bool := c.isAlphanum || c == '_'

/-- `SimilarityEngine.stop_words` (a Python set literal; the duplicated
`'her'` collapses). -/
def stop_words : List String :=
  ["the", "a", "an", "and", "or", "but", "in", "on", "at", "to", "for",
   "of", "with", "by", "is", "are", "was", "were", "be", "been", "being",
   "have", "has", "had", "do", "does", "did", "will", "would", "could",
   "should", "may", "might", "must", "can", "this", "that", "these",
   "those", "i", "you", "he", "she", "it", "we", "they", "me", "him",
   "her", "us", "them", "my", "your", "his", "its", "our", "their"]

/-- `SimilarityEngine.preprocess_text`: lower-case, extract `\b\w+\b`
words, drop stop words and words of length `≤ 2`. -/
def preprocess_text (text : String) : List String :=
  ((pyRuns isWordChar (strLower text).data).map String.mk).filter
    (fun word => !stop_words.contains word && decide (2 < word.length))

/-- The text scored for a document:
`doc.get('content', '') + ' ' + doc.get('title', '')`. -/
def doc_text (d : Doc) : String := d.content ++ " " ++ d.title

/-- `SimilarityEngine.calculate_jaccard_similarity`. -/
noncomputable def calculate_jaccard_similarity (query_text : String)
    (documents : List Doc) : List (Doc × ℝ) :=
  let query_words := (preprocess_text query_text).toFinset
  if query_words = ∅ then documents.map (fun d => (d, 0))
  else
    documents.map (fun d =>
      let doc_words := (preprocess_text (doc_text d)).toFinset
      if doc_words = ∅ then (d, 0)
      else
        let intersection := (query_words ∩ doc_words).card
        let union := (query_words ∪ doc_words).card
        (d, if 0 < union then (intersection : ℝ) / (union : ℝ) else 0))

/-- `SimilarityEngine._cosine_similarity` over the shared key set (in
`calculate_tf_idf_similarity` both vector dicts are indexed by exactly
`all_words`, so the source's union of the two key sets is `keys`). -/
noncomputable def cosine_similarity (keys : Finset String) (vec1 vec2 : String → ℝ) : ℝ :=
  let dot_product := ∑ w ∈ keys, vec1 w * vec2 w
  let magnitude1 := Real.sqrt (∑ w ∈ keys, vec1 w * vec1 w)
  let magnitude2 := Real.sqrt (∑ w ∈ keys, vec2 w * vec2 w)
  if magnitude1 = 0 ∨ magnitude2 = 0 then 0
  else dot_product / (magnitude1 * magnitude2)

/-- `SimilarityEngine.calculate_tf_idf_similarity`. -/
noncomputable def calculate_tf_idf_similarity (query_text : String)
    (documents : List Doc) : List (Doc × ℝ) :=
  if documents = [] then []
  else
    let query_words := preprocess_text query_text
    if query_words = [] then documents.map (fun d => (d, 0))
    else
      let doc_words := documents.map (fun d => preprocess_text (doc_text d))
      let all_words : Finset String :=
        doc_words.foldl (fun acc ws => acc ∪ ws.toFinset) query_words.toFinset
      let idf : String → ℝ := fun w =>
        Real.log ((documents.length : ℝ) /
          (1 + ((doc_words.filter (fun ws => w ∈ ws)).length : ℝ)))
      let query_vector : String → ℝ := fun w =>
        ((query_words.count w : ℝ) / (query_words.length : ℝ)) * idf w
      documents.map (fun d =>
        let dws := preprocess_text (doc_text d)
        let doc_vector : String → ℝ := fun w =>
          (if dws.isEmpty then 0 else (dws.count w : ℝ) / (dws.length : ℝ)) * idf w
        (d, cosine_similarity all_words query_vector doc_vector))

/-- `SimilarityEngine._calculate_title_similarity`. -/
noncomputable def title_similarity (query : String) (title : String) : ℝ :=
  if title = "" then 0
  else if strHasSub (strLower title) (strLower query) then 1
  else
    let query_words := (preprocess_text query).toFinset
    let title_words := (preprocess_text title).toFinset
    if query_words = ∅ ∨ title_words = ∅ then 0
    else ((query_words ∩ title_words).card : ℝ) / (query_words.card : ℝ)

/-- `SimilarityEngine._calculate_content_similarity`: total query-word
occurrence count in the content words, normalized by `√(content length)`
and capped at `1`. -/
noncomputable def content_word_similarity (query_words : List String) (content : String) : ℝ :=
  if content = "" ∨ query_words = [] then 0
  else
    let content_words := preprocess_text content
    if content_words = [] then 0
    else
      let matchSum : Nat := (query_words.map (fun w => content_words.count w)).sum
      min ((matchSum : ℝ) / Real.sqrt (content_words.length : ℝ)) 1

/-- `SimilarityEngine._calculate_keyword_similarity`: exact phrase match
scores `1`, otherwise each query word contributes
`min(count * 0.3, 1.0)` when it occurs, averaged over the query words. -/
noncomputable def keyword_occurrence_similarity (query_words : List String)
    (content : String) : ℝ :=
  if content = "" ∨ query_words = [] then 0
  else
    let content_lower := strLower content
    if strHasSub content_lower (joinSpace query_words) then 1
    else
      let matchSum : ℝ := (query_words.map (fun w =>
        if strHasSub content_lower w then
          min ((countOccs content_lower w : ℝ) * 0.3) 1
        else 0)).sum
      if query_words.length = 0 then 0 else matchSum / (query_words.length : ℝ)

/-- `SimilarityEngine.calculate_semantic_similarity`: weighted combination
`title * 0.4 + content * 0.4 + keyword * 0.2`. -/
noncomputable def calculate_semantic_similarity (query_text : String)
    (documents : List Doc) : List (Doc × ℝ) :=
  let query_words := preprocess_text query_text
  if query_words = [] then documents.map (fun d => (d, 0))
  else
    documents.map (fun d =>
      (d, title_similarity query_text d.title * 0.4 +
          content_word_similarity query_words d.content * 0.4 +
          keyword_occurrence_similarity query_words d.content * 0.2))

/-- `similarities[i][1]` lookup used when fusing the per-algorithm score
lists (the three lists are parallel to `documents`, so the default is
never taken on the source's inputs). -/
noncomputable def score_at (l : List (Doc × ℝ)) (i : Nat) : ℝ :=
  (l[i]?.map Prod.snd).getD 0

/-- `SimilarityEngine.calculate_hybrid_similarity` with the default
weights `{'tfidf': 0.4, 'jaccard': 0.2, 'semantic': 0.4}`. -/
noncomputable def calculate_hybrid_similarity (query_text : String)
    (documents : List Doc) : List (Doc × ℝ) :=
  if documents = [] then []
  else
    let tfidf_sims := calculate_tf_idf_similarity query_text documents
    let jaccard_sims := calculate_jaccard_similarity query_text documents
    let semantic_sims := calculate_semantic_similarity query_text documents
    documents.enum.map (fun p =>
      (p.2, score_at tfidf_sims p.1 * 0.4 + score_at jaccard_sims p.1 * 0.2 +
            score_at semantic_sims p.1 * 0.4))

/-- `SimilarityEngine.calculate_similarity`: dispatch on the algorithm
name, defaulting to semantic. -/
noncomputable def calculate_similarity (query_text : String) (documents : List Doc)
    (algorithm : String) : List (Doc × ℝ) :=
  if algorithm = "tfidf" then calculate_tf_idf_similarity query_text documents
  else if algorithm = "jaccard" then calculate_jaccard_similarity query_text documents
  else if algorithm = "hybrid" then calculate_hybrid_similarity query_text documents
  else calculate_semantic_similarity query_text documents

/-- Whether an awaited task outcome is a success. -/
def outcome_ok : Except String String → Bool
  | .ok _ => true
  | .error _ => false

/-- The response text of a successful outcome (empty for a failure). -/
def outcome_response : Except String String → String
  | .ok r => r
  | .error _ => ""

/-! ## Theorems -/

/-! ### Stable sort lemmas -/

theorem insertByDesc_perm (key : α → ℚ) (x : α) :
    ∀ l : List α, List.Perm (insertByDesc key x l) (x :: l)
  | [] => List.Perm.refl _
  | y :: ys => by
    unfold insertByDesc
    split
    · exact ((insertByDesc_perm key x ys).cons y).trans (List.Perm.swap x y ys)
    · exact List.Perm.refl _

theorem sortByDesc_perm (key : α → ℚ) : ∀ l : List α, List.Perm (sortByDesc key l) l
  | [] => List.Perm.refl _
  | x :: xs => by
    show List.Perm (insertByDesc key x (sortByDesc key xs)) (x :: xs)
    exact (insertByDesc_perm key x _).trans ((sortByDesc_perm key xs).cons x)

theorem insertByDesc_sorted (key : α → ℚ) (x : α) :
    ∀ l : List α, l.Pairwise (fun a b => key b ≤ key a) →
      (insertByDesc key x l).Pairwise (fun a b => key b ≤ key a)
  | [], _ => List.pairwise_singleton _ _
  | y :: ys, h => by
    unfold insertByDesc
    split
    · next hxy =>
      rw [List.pairwise_cons] at h ⊢
      refine ⟨fun z hz => ?_, insertByDesc_sorted key x ys h.2⟩
      rcases List.mem_cons.mp ((insertByDesc_perm key x ys).mem_iff.mp hz) with hz' | hz'
      · exact hz' ▸ le_of_lt hxy
      · exact h.1 z hz'
    · next hxy =>
      rw [List.pairwise_cons] at h
      rw [List.pairwise_cons]
      refine ⟨fun z hz => ?_, List.pairwise_cons.mpr h⟩
      rcases List.mem_cons.mp hz with hz' | hz'
      · exact hz' ▸ le_of_not_lt hxy
      · exact le_trans (h.1 z hz') (le_of_not_lt hxy)

theorem sortByDesc_sorted (key : α → ℚ) :
    ∀ l : List α, (sortByDesc key l).Pairwise (fun a b => key b ≤ key a)
  | [] => List.Pairwise.nil
  | x :: xs => insertByDesc_sorted key x _ (sortByDesc_sorted key xs)

theorem insertByDesc_of_le (key : α → ℚ) (x : α) (l : List α)
    (h : ∀ y ∈ l, key y ≤ key x) : insertByDesc key x l = x :: l := by
  cases l with
  | nil => rfl
  | cons y ys =>
    unfold insertByDesc
    rw [if_neg (not_lt.mpr (h y (List.mem_cons_self y ys)))]

theorem sortByDesc_of_sorted (key : α → ℚ) :
    ∀ l : List α, l.Pairwise (fun a b => key b ≤ key a) → sortByDesc key l = l
  | [], _ => rfl
  | x :: xs, h => by
    rw [List.pairwise_cons] at h
    show insertByDesc key x (sortByDesc key xs) = x :: xs
    rw [sortByDesc_of_sorted key xs h.2]
    exact insertByDesc_of_le key x xs h.1

/-! ### Deduplication lemmas -/

theorem deduplicate_aux_append :
    ∀ (rest acc : List SearchResult), ∃ ds,
      deduplicate_aux rest acc = acc ++ ds ∧ ds.Sublist rest
  | [], acc => ⟨[], by simp [deduplicate_aux]⟩
  | r :: rs, acc => by
    unfold deduplicate_aux
    split
    · obtain ⟨ds, heq, hsub⟩ := deduplicate_aux_append rs acc
      exact ⟨ds, heq, hsub.cons r⟩
    · obtain ⟨ds, heq, hsub⟩ := deduplicate_aux_append rs (acc ++ [r])
      exact ⟨r :: ds, by simpa using heq, hsub.cons₂ r⟩

theorem deduplicate_results_sublist (l : List SearchResult) :
    (deduplicate_results l).Sublist l := by
  cases l with
  | nil => exact List.Sublist.refl _
  | cons r rs =>
    obtain ⟨ds, heq, hsub⟩ := deduplicate_aux_append rs [r]
    show List.Sublist (deduplicate_aux rs [r]) (r :: rs)
    rw [heq]
    exact hsub.cons₂ r

theorem calculate_content_similarity_comm (c1 c2 : String) :
    calculate_content_similarity c1 c2 = calculate_content_similarity c2 c1 := by
  simp only [calculate_content_similarity]
  rw [Finset.inter_comm, Finset.union_comm]
  split_ifs with h1 h2 <;> first | rfl | tauto

theorem deduplicate_aux_pairwise :
    ∀ (rest acc : List SearchResult),
      acc.Pairwise (fun a b => calculate_content_similarity a.content b.content ≤ 0.8) →
      (deduplicate_aux rest acc).Pairwise
        (fun a b => calculate_content_similarity a.content b.content ≤ 0.8)
  | [], _, h => h
  | r :: rs, acc, h => by
    unfold deduplicate_aux
    split
    · exact deduplicate_aux_pairwise rs acc h
    · next hany =>
      refine deduplicate_aux_pairwise rs (acc ++ [r]) ?_
      rw [List.pairwise_append]
      refine ⟨h, List.pairwise_singleton _ _, fun a ha b hb => ?_⟩
      rw [List.mem_singleton] at hb
      subst hb
      rw [List.any_eq_true] at hany
      push_neg at hany
      have hle := hany a ha
      simp only [ne_eq, decide_eq_true_eq] at hle
      rw [calculate_content_similarity_comm]
      exact le_of_not_lt hle

theorem deduplicate_results_pairwise (l : List SearchResult) :
    (deduplicate_results l).Pairwise
      (fun a b => calculate_content_similarity a.content b.content ≤ 0.8) := by
  cases l with
  | nil => exact List.Pairwise.nil
  | cons r rs =>
    exact deduplicate_aux_pairwise rs [r] (List.pairwise_singleton _ _)

/-! ### Claims about post-processing, ranking and error paths -/

/-- C3 (amended): within the post-processing stage the pipeline order is
exactly filter → dedup → stable sort → top-k truncation: whenever the
routed candidate list is already score-descending (as the hybrid combiner
produces), `_post_process_results` computes precisely the spec's §4.2
Ranker pipeline, whose truncation runs last.  (The hybrid route however
pre-truncates before this stage — see the counterexample.) -/
theorem c3_post_processing_matches_spec_ranker (results : List SearchResult)
    (similarity_threshold : ℚ) (top_k : Nat)
    (hsorted : results.Pairwise (fun a b => b.similarity_score ≤ a.similarity_score)) :
    post_process_results results similarity_threshold top_k
      = spec_ranker_pipeline results similarity_threshold top_k := by
  simp only [post_process_results, spec_ranker_pipeline]
  rw [sortByDesc_of_sorted (fun r => r.similarity_score)
    (results.filter (fun r => decide (similarity_threshold ≤ r.similarity_score)))
    (List.Pairwise.sublist (List.filter_sublist _) hsorted)]

/-- Witness for `c3_post_processing_matches_spec_ranker` at a concrete
sorted two-element input. -/
theorem c3_witness :
    List.Pairwise (fun a b => b.similarity_score ≤ a.similarity_score)
      [({ content := "u v", title := "A", source := "s", similarity_score := 0.9,
          chunk_id := "c1", document_id := "d1", position := 0,
          search_algorithm := "semantic", confidence := 0.9 } : SearchResult),
       ({ content := "p q", title := "B", source := "s", similarity_score := 0.4,
          chunk_id := "c2", document_id := "d2", position := 1,
          search_algorithm := "semantic", confidence := 0.4 } : SearchResult)]
    ∧ post_process_results
        [({ content := "u v", title := "A", source := "s", similarity_score := 0.9,
            chunk_id := "c1", document_id := "d1", position := 0,
            search_algorithm := "semantic", confidence := 0.9 } : SearchResult),
         ({ content := "p q", title := "B", source := "s", similarity_score := 0.4,
            chunk_id := "c2", document_id := "d2", position := 1,
            search_algorithm := "semantic", confidence := 0.4 } : SearchResult)] 0.5 5
      = spec_ranker_pipeline
        [({ content := "u v", title := "A", source := "s", similarity_score := 0.9,
            chunk_id := "c1", document_id := "d1", position := 0,
            search_algorithm := "semantic", confidence := 0.9 } : SearchResult),
         ({ content := "p q", title := "B", source := "s", similarity_score := 0.4,
            chunk_id := "c2", document_id := "d2", position := 1,
            search_algorithm := "semantic", confidence := 0.4 } : SearchResult)] 0.5 5 :=
  ⟨by norm_num [List.pairwise_cons],
   c3_post_processing_matches_spec_ranker _ 0.5 5 (by norm_num [List.pairwise_cons])⟩

/-- Semantic-route results for the C3 counterexample: three above-threshold
chunks, the second a near-duplicate of the first. -/
def c3_semantic_results : List SearchResult :=
  [{ content := "dup", title := "A", source := "s", similarity_score := 0.9,
     chunk_id := "c1", document_id := "d1", position := 0,
     search_algorithm := "semantic", confidence := 0.9 },
   { content := "dup", title := "B", source := "s", similarity_score := 0.85,
     chunk_id := "c2", document_id := "d2", position := 1,
     search_algorithm := "semantic", confidence := 0.85 },
   { content := "other", title := "C", source := "s", similarity_score := 0.8,
     chunk_id := "c3", document_id := "d3", position := 2,
     search_algorithm := "semantic", confidence := 0.8 }]

/-- C3 counterexample: on the hybrid path the `[:top_k]` truncation in
`_hybrid_search` runs *before* post-processing, so chunk `c3` — which
survives filter+dedup — is lost, and the returned list differs from
`truncate(sort(dedup(filter(scored_results))))`. -/
theorem c3_counterexample :
    advanced_search (.ok (hybrid_search c3_semantic_results [] 2)) "q" "hybrid" 0.5 2
      ≠ spec_ranker_pipeline (combine_search_results c3_semantic_results []) 0.5 2 := by
  have hdup : (pyWords (strLower "dup")).toFinset = ({"dup"} : Finset String) := by decide
  have hother : (pyWords (strLower "other")).toFinset = ({"other"} : Finset String) := by decide
  have hsim1 : calculate_content_similarity "dup" "dup" = 1 := by
    simp [calculate_content_similarity, hdup]
  have hsim2 : calculate_content_similarity "other" "dup" = 0 := by
    have hc : (({"other"} : Finset String) ∩ {"dup"}).card = 0 := by decide
    have hu : (({"other"} : Finset String) ∪ {"dup"}).card = 2 := by decide
    simp [calculate_content_similarity, hother, hdup, hc, hu]
  have hs12 : (("c1" : String) = "c2") = False := by simp
  have hs13 : (("c1" : String) = "c3") = False := by simp
  have hs23 : (("c2" : String) = "c3") = False := by simp
  norm_num [c3_semantic_results, advanced_search, hybrid_search, combine_search_results,
    dict_update, dict_find, post_process_results, spec_ranker_pipeline,
    deduplicate_results, deduplicate_aux, sortByDesc, insertByDesc,
    hsim1, hsim2, hs12, hs13, hs23, List.filter]

/-- C8 (amended): `_deduplicate_results` iterates candidates in their given
(pre-sort) order — score-descending only when the input already is — and
drops any candidate whose content overlap with an accepted result exceeds
`0.8`; consequently in every list returned by post-processing no two
results have content token-set Jaccard overlap greater than `0.8`. -/
theorem c8_no_two_results_overlap (results : List SearchResult)
    (similarity_threshold : ℚ) (top_k : Nat) :
    (post_process_results results similarity_threshold top_k).Pairwise
      (fun a b => calculate_content_similarity a.content b.content ≤ 0.8) := by
  simp only [post_process_results]
  refine List.Pairwise.sublist (List.take_sublist _ _) ?_
  refine List.Pairwise.perm (deduplicate_results_pairwise _)
    (sortByDesc_perm _ _).symm ?_
  intro a b h
  show calculate_content_similarity b.content a.content ≤ 0.8
  rw [calculate_content_similarity_comm]
  exact h

/-- C8 counterexample: deduplication runs on the pre-sort order, not in
score-descending order.  On an unsorted candidate list whose two entries
share their content, the code keeps the *lower*-scored first-seen entry,
while the spec's score-descending iteration keeps the higher-scored one. -/
theorem c8_counterexample :
    post_process_results
      [{ content := "dup", title := "LOW", source := "s", similarity_score := 0.5,
         chunk_id := "cb", document_id := "db", position := 0,
         search_algorithm := "semantic", confidence := 0.5 },
       { content := "dup", title := "HIGH", source := "s", similarity_score := 0.9,
         chunk_id := "ca", document_id := "da", position := 1,
         search_algorithm := "semantic", confidence := 0.9 }] 0 5
    ≠ spec_ranker_pipeline
      [{ content := "dup", title := "LOW", source := "s", similarity_score := 0.5,
         chunk_id := "cb", document_id := "db", position := 0,
         search_algorithm := "semantic", confidence := 0.5 },
       { content := "dup", title := "HIGH", source := "s", similarity_score := 0.9,
         chunk_id := "ca", document_id := "da", position := 1,
         search_algorithm := "semantic", confidence := 0.9 }] 0 5 := by
  have hdup : (pyWords (strLower "dup")).toFinset = ({"dup"} : Finset String) := by decide
  have hsim : calculate_content_similarity "dup" "dup" = 1 := by
    simp [calculate_content_similarity, hdup]
  norm_num [post_process_results, spec_ranker_pipeline, deduplicate_results,
    deduplicate_aux, sortByDesc, insertByDesc, hsim, List.filter]

/-- C1 (code bug): on `advanced_search`'s internal-error path the handler
returns a fabricated mock result with `similarity_score = 0.8` without any
threshold filtering, so with an active threshold of `0.9` a result whose
score is below the threshold is returned. -/
theorem c1_error_path_returns_below_threshold_result :
    mock_search_result "test query" "hybrid"
        ∈ advanced_search (.err "internal error") "test query" "hybrid" 0.9 5
    ∧ (mock_search_result "test query" "hybrid").similarity_score < 0.9 := by
  constructor
  · show mock_search_result "test query" "hybrid" ∈ [mock_search_result "test query" "hybrid"]
    exact List.mem_singleton.mpr rfl
  · norm_num [mock_search_result]

/-- C4: if the underlying document store is unavailable (the database call
raises) or yields no documents, both `RAGEngine.similarity_search` and
`advanced_search` (over every algorithm) return `[]` — exceptions are
absorbed, never propagated to the caller. -/
theorem c4_unavailable_store_yields_empty
    (scorer : String → List Doc → List (Doc × ℚ)) (query : String)
    (algorithm : SearchAlgorithm) (top_k : Nat) (tk : TopKArg)
    (similarity_threshold : ℚ) (msg : String) :
    similarity_search (.error msg) scorer query tk similarity_threshold = []
    ∧ similarity_search (.ok []) scorer query tk similarity_threshold = []
    ∧ advanced_search_from_store (.error msg) scorer query algorithm top_k
        similarity_threshold = []
    ∧ advanced_search_from_store (.ok []) scorer query algorithm top_k
        similarity_threshold = [] := by
  have h1 : ∀ (tk' : TopKArg) (t' : ℚ),
      similarity_search (.error msg) scorer query tk' t' = [] := by
    intro tk' t'
    simp [similarity_search, get_all_documents]
  have h2 : ∀ (tk' : TopKArg) (t' : ℚ),
      similarity_search (.ok []) scorer query tk' t' = [] := by
    intro tk' t'
    simp [similarity_search, get_all_documents]
  refine ⟨h1 tk _, h2 tk _, ?_, ?_⟩ <;>
    cases algorithm <;>
      simp [advanced_search_from_store, advanced_search, route_search, h1, h2,
        to_search_results, hybrid_search, combine_search_results, post_process_results,
        deduplicate_results, sortByDesc]

/-- C7 counterexample: `RAGEngine._validate_top_k` — one of the two cited
top-k coercion sites — coerces non-positive `top_k` to `1`, not to the
claimed default of `5`. -/
theorem c7_counterexample :
    validate_top_k 0 = 1 ∧ validate_top_k (-3) = 1 ∧ (1 : Int) ≠ 5 := by
  decide

/-- C7 (amended): `SimilarityEngine.rank_documents` coerces every invalid
or non-positive `top_k` (`None`, non-numeric, `0`, negative) to the
default `5` and returns at most `5` results (no exception and no
negative-length slice can occur: the embedding is total and the coerced
count is a natural number); `RAGEngine._validate_top_k`, by contrast,
coerces non-positive values to `1`. -/
theorem c7_invalid_top_k_coercion :
    (∀ arg : TopKArg,
      (arg = .noneVal ∨ arg = .notNumeric ∨ ∃ n : Int, n ≤ 0 ∧ arg = .val n) →
      coerce_top_k arg = 5 ∧
        ∀ (sims : List (Doc × ℚ)) (t : ℚ), (rank_documents sims arg t).length ≤ 5)
    ∧ (∀ n : Int, n ≤ 0 → validate_top_k n = 1) := by
  constructor
  · intro arg harg
    have hco : coerce_top_k arg = 5 := by
      rcases harg with h | h | ⟨n, hn, h⟩ <;> subst h
      · rfl
      · rfl
      · simp [coerce_top_k, hn]
    refine ⟨hco, fun sims t => ?_⟩
    simp only [rank_documents, hco]
    exact le_trans (List.length_take_le _ _) (le_refl 5)
  · intro n hn
    rcases lt_or_eq_of_le hn with h | h
    · simp [validate_top_k, h]
    · simp [validate_top_k, ← h]

/-- Witness for `c7_invalid_top_k_coercion` at `top_k = 0` (ranking side)
and `top_k = -3` (validation side). -/
theorem c7_witness :
    coerce_top_k (.val 0) = 5
    ∧ (rank_documents [] (.val 0) 0).length ≤ 5
    ∧ validate_top_k (-3) = 1 :=
  ⟨(c7_invalid_top_k_coercion.1 (.val 0)
      (Or.inr (Or.inr ⟨0, le_refl 0, rfl⟩))).1,
   (c7_invalid_top_k_coercion.1 (.val 0)
      (Or.inr (Or.inr ⟨0, le_refl 0, rfl⟩))).2 [] 0,
   c7_invalid_top_k_coercion.2 (-3) (by decide)⟩

/-! ### Multi-agent coordination lemmas and claims -/

theorem dict_update_of_fresh (k : String) (v : β) :
    ∀ m : List (String × β), (∀ p ∈ m, p.1 ≠ k) → dict_update k v m = m ++ [(k, v)]
  | [], _ => rfl
  | (k', v') :: rest, h => by
    unfold dict_update
    rw [if_neg (h (k', v') (List.mem_cons_self _ _))]
    rw [dict_update_of_fresh k v rest (fun p hp => h p (List.mem_cons_of_mem _ hp))]
    simp

theorem gather_results_aux_eq (exec : AgentType → Except String String) :
    ∀ (sel : List AgentType) (acc : List (String × ResultEntry)),
      (∀ t ∈ sel, ∀ p ∈ acc, p.1 ≠ t.value) →
      (sel.map AgentType.value).Nodup →
      sel.foldl (fun a t => dict_update t.value (to_entry (exec t)) a) acc
        = acc ++ sel.map (fun t => (t.value, to_entry (exec t)))
  | [], acc, _, _ => by simp
  | t :: ts, acc, hdisj, hnd => by
    rw [List.foldl_cons]
    rw [dict_update_of_fresh t.value (to_entry (exec t)) acc
      (fun p hp => hdisj t (List.mem_cons_self _ _) p hp)]
    rw [List.map_cons, List.nodup_cons] at hnd
    rw [gather_results_aux_eq exec ts (acc ++ [(t.value, to_entry (exec t))])
      (fun t' ht' p hp => by
        rcases List.mem_append.mp hp with hp | hp
        · exact hdisj t' (List.mem_cons_of_mem _ ht') p hp
        · rw [List.mem_singleton] at hp
          subst hp
          intro hcontra
          apply hnd.1
          have hval : t.value = t'.value := hcontra
          rw [hval]
          exact List.mem_map_of_mem AgentType.value ht')
      hnd.2]
    simp

theorem gather_results_eq (sel : List AgentType) (exec : AgentType → Except String String)
    (hnd : (sel.map AgentType.value).Nodup) :
    gather_results sel exec = sel.map (fun t => (t.value, to_entry (exec t))) := by
  simpa using gather_results_aux_eq exec sel [] (by simp) hnd

/-- C5: multi-strategy coordination over the selected strategies: a failing
strategy contributes a per-strategy error entry instead of aborting the
others; if at least one strategy survives, the final answer concatenates
each surviving strategy's response under its labelled perspective section
(in selection order); if all fail, the explicit all-failed result is
returned.  The embedding is a total function of the per-strategy outcomes,
so the call never raises. -/
theorem c5_coordination_error_capture_and_synthesis
    (agent_types : List AgentType) (exec : AgentType → Except String String)
    (hnd : ((agent_types.take 3).map AgentType.value).Nodup) :
    (∀ t ∈ agent_types.take 3, ∀ e, exec t = .error e →
        (t.value, ResultEntry.err e) ∈ (coordinate_agents agent_types exec).agent_results)
    ∧ ((∃ t ∈ agent_types.take 3, outcome_ok (exec t) = true) →
        (coordinate_agents agent_types exec).response
          = String.intercalate "\n\n"
              (((agent_types.take 3).filter (fun t => outcome_ok (exec t))).map (fun t =>
                "**" ++ strUpper t.value ++ " PERSPECTIVE:**\n" ++ outcome_response (exec t)))
        ∧ (coordinate_agents agent_types exec).error = none)
    ∧ ((∀ t ∈ agent_types.take 3, outcome_ok (exec t) = false) →
        (coordinate_agents agent_types exec).response
            = "All agents failed to process the query."
        ∧ (coordinate_agents agent_types exec).error = some "Agent coordination failed") := by
  have hres : gather_results (agent_types.take 3) exec
      = (agent_types.take 3).map (fun t => (t.value, to_entry (exec t))) :=
    gather_results_eq _ exec hnd
  have hfilter :
      ((agent_types.take 3).map (fun t => (t.value, to_entry (exec t)))).filter
          (fun p => match p.2 with | .ok _ => true | .err _ => false)
        = ((agent_types.take 3).filter (fun t => outcome_ok (exec t))).map
            (fun t => (t.value, to_entry (exec t))) := by
    rw [List.filter_map]
    congr 1
    apply List.filter_congr
    intro t _
    cases hexec : exec t <;> simp [to_entry, outcome_ok, Function.comp, hexec]
  refine ⟨?_, ?_, ?_⟩
  · intro t ht e he
    show (t.value, ResultEntry.err e)
        ∈ (synthesize_agent_results (gather_results (agent_types.take 3) exec)).agent_results
    rw [hres]
    have hagg : (synthesize_agent_results
        ((agent_types.take 3).map (fun t => (t.value, to_entry (exec t))))).agent_results
        = (agent_types.take 3).map (fun t => (t.value, to_entry (exec t))) := by
      simp only [synthesize_agent_results]
      split <;> rfl
    rw [hagg]
    have hentry : (t.value, ResultEntry.err e) = (fun t => (t.value, to_entry (exec t))) t := by
      show (t.value, ResultEntry.err e) = (t.value, to_entry (exec t))
      rw [he]
      rfl
    rw [hentry]
    exact List.mem_map_of_mem _ ht
  · rintro ⟨t, ht, hok⟩
    have hnonempty :
        ((agent_types.take 3).filter (fun t => outcome_ok (exec t))).map
            (fun t => (t.value, to_entry (exec t))) ≠ [] := by
      simp only [ne_eq, List.map_eq_nil_iff, List.filter_eq_nil_iff, not_forall]
      exact ⟨t, ht, by simp [hok]⟩
    show (synthesize_agent_results (gather_results (agent_types.take 3) exec)).response = _
      ∧ (synthesize_agent_results (gather_results (agent_types.take 3) exec)).error = none
    rw [hres]
    simp only [synthesize_agent_results]
    rw [hfilter]
    rw [if_neg (by simpa [List.isEmpty_iff] using hnonempty)]
    refine ⟨?_, rfl⟩
    show String.intercalate "\n\n" (List.map _ _) = _
    rw [List.map_map]
    congr 1
    apply List.map_congr_left
    intro t' ht'
    have hok' : outcome_ok (exec t') = true := (List.mem_filter.mp ht').2
    cases hexec : exec t' with
    | ok r => simp [Function.comp, to_entry, outcome_response, hexec]
    | error e => rw [hexec] at hok'; simp [outcome_ok] at hok'
  · intro hall
    have hempty :
        ((agent_types.take 3).filter (fun t => outcome_ok (exec t))) = [] := by
      rw [List.filter_eq_nil_iff]
      intro t ht
      simp [hall t ht]
    show (synthesize_agent_results (gather_results (agent_types.take 3) exec)).response = _
      ∧ (synthesize_agent_results (gather_results (agent_types.take 3) exec)).error = _
    rw [hres]
    simp only [synthesize_agent_results]
    rw [hfilter, hempty]
    simp

/-- Witness for `c5_coordination_error_capture_and_synthesis`: two distinct
strategies, both forced to fail, yield the explicit all-failed result. -/
theorem c5_witness :
    (coordinate_agents [AgentType.analytical, AgentType.research]
        (fun _ => .error "forced failure")).response
      = "All agents failed to process the query."
    ∧ (coordinate_agents [AgentType.analytical, AgentType.research]
        (fun _ => .error "forced failure")).error = some "Agent coordination failed" :=
  (c5_coordination_error_capture_and_synthesis
    [AgentType.analytical, AgentType.research]
    (fun _ => .error "forced failure") (by decide)).2.2 (by decide)

/-! ### Query-analysis selection lemmas and claims -/

theorem selectStep_snd (query_lower : String) (b : AgentType × Nat)
    (p : AgentType × List String) :
    (selectStep query_lower b p).2 = max b.2 (hitCount query_lower p.2) := by
  unfold selectStep
  split
  · next h => exact (Nat.max_eq_right (Nat.le_of_lt h)).symm
  · next h => exact (Nat.max_eq_left (Nat.le_of_not_lt h)).symm

theorem foldr_max_shift (query_lower : String) :
    ∀ (l : List (AgentType × List String)) (m n : Nat),
      l.foldr (fun p acc => max (hitCount query_lower p.2) acc) (max m n)
        = max m (l.foldr (fun p acc => max (hitCount query_lower p.2) acc) n)
  | [], m, n => rfl
  | p :: ps, m, n => by
    simp only [List.foldr_cons]
    rw [foldr_max_shift query_lower ps m n]
    rw [Nat.max_left_comm]

theorem selectFold_snd (query_lower : String) :
    ∀ (l : List (AgentType × List String)) (b : AgentType × Nat),
      (l.foldl (selectStep query_lower) b).2
        = l.foldr (fun p acc => max (hitCount query_lower p.2) acc) b.2
  | [], _ => rfl
  | p :: ps, b => by
    simp only [List.foldl_cons, List.foldr_cons]
    rw [selectFold_snd query_lower ps (selectStep query_lower b p)]
    rw [selectStep_snd]
    rw [Nat.max_comm b.2 (hitCount query_lower p.2)]
    exact foldr_max_shift query_lower ps (hitCount query_lower p.2) b.2

theorem hit_le_foldr_max (query_lower : String) :
    ∀ (l : List (AgentType × List String)) (n : Nat), ∀ p ∈ l,
      hitCount query_lower p.2 ≤ l.foldr (fun p acc => max (hitCount query_lower p.2) acc) n
  | [], _, _, h => absurd h (List.not_mem_nil _)
  | q :: ps, n, p, h => by
    simp only [List.foldr_cons]
    rcases List.mem_cons.mp h with h' | h'
    · subst h'
      exact Nat.le_max_left _ _
    · exact le_trans (hit_le_foldr_max query_lower ps n p h') (Nat.le_max_right _ _)

theorem selectFold_of_all_le (query_lower : String) :
    ∀ (l : List (AgentType × List String)) (b : AgentType × Nat),
      (∀ p ∈ l, hitCount query_lower p.2 ≤ b.2) →
      l.foldl (selectStep query_lower) b = b
  | [], _, _ => rfl
  | p :: ps, b, h => by
    simp only [List.foldl_cons]
    have hstep : selectStep query_lower b p = b := by
      unfold selectStep
      rw [if_neg (Nat.not_lt.mpr (h p (List.mem_cons_self _ _)))]
    rw [hstep]
    exact selectFold_of_all_le query_lower ps b (fun q hq => h q (List.mem_cons_of_mem _ hq))

theorem selectFold_first_attain (query_lower : String) :
    ∀ (l : List (AgentType × List String)) (b : AgentType × Nat) (M : Nat),
      M = l.foldr (fun p acc => max (hitCount query_lower p.2) acc) 0 →
      b.2 < M →
      ∀ q, l.find? (fun p => decide (M ≤ hitCount query_lower p.2)) = some q →
      (l.foldl (selectStep query_lower) b).1 = q.1
  | [], b, M, hM, hlt, q, hq => by
    subst hM
    exact absurd hlt (Nat.not_lt.mpr (Nat.zero_le _))
  | p :: ps, b, M, hM, hlt, q, hq => by
    simp only [List.foldr_cons] at hM
    simp only [List.foldl_cons]
    by_cases hbp : b.2 < hitCount query_lower p.2
    · have hstep : selectStep query_lower b p = (p.1, hitCount query_lower p.2) := by
        unfold selectStep
        rw [if_pos hbp]
      rw [hstep]
      by_cases hmax : ps.foldr (fun p acc => max (hitCount query_lower p.2) acc) 0
          ≤ hitCount query_lower p.2
      · have hMp : M = hitCount query_lower p.2 := by
          rw [hM]
          exact Nat.max_eq_left hmax
        have hfind : (p :: ps).find? (fun p => decide (M ≤ hitCount query_lower p.2)) = some p := by
          rw [List.find?_cons_of_pos]
          simp [hMp]
        rw [hfind] at hq
        injection hq with hq
        subst hq
        have := selectFold_of_all_le query_lower ps (p.1, hitCount query_lower p.2)
          (fun r hr => le_trans (hit_le_foldr_max query_lower ps 0 r hr) hmax)
        rw [this]
      · have hmax' : hitCount query_lower p.2
            < ps.foldr (fun p acc => max (hitCount query_lower p.2) acc) 0 :=
          Nat.lt_of_not_le hmax
        have hMps : M = ps.foldr (fun p acc => max (hitCount query_lower p.2) acc) 0 := by
          rw [hM]
          exact Nat.max_eq_right (Nat.le_of_lt hmax')
        have hfind : (p :: ps).find? (fun p => decide (M ≤ hitCount query_lower p.2))
            = ps.find? (fun p => decide (M ≤ hitCount query_lower p.2)) := by
          rw [List.find?_cons_of_neg]
          simp only [decide_eq_true_eq]
          rw [hMps]
          exact Nat.not_le.mpr hmax'
        rw [hfind] at hq
        exact selectFold_first_attain query_lower ps (p.1, hitCount query_lower p.2) M hMps
          (hMps ▸ hmax') q hq
    · have hstep : selectStep query_lower b p = b := by
        unfold selectStep
        rw [if_neg hbp]
      rw [hstep]
      have hple : hitCount query_lower p.2 ≤ b.2 := Nat.le_of_not_lt hbp
      have hpltM : hitCount query_lower p.2 < M := Nat.lt_of_le_of_lt hple hlt
      have hMps : M = ps.foldr (fun p acc => max (hitCount query_lower p.2) acc) 0 := by
        rcases Nat.le_total (hitCount query_lower p.2)
            (ps.foldr (fun p acc => max (hitCount query_lower p.2) acc) 0) with hle | hle
        · rw [hM]
          exact Nat.max_eq_right hle
        · exfalso
          rw [hM, Nat.max_eq_left hle] at hpltM
          exact lt_irrefl _ hpltM
      have hfind : (p :: ps).find? (fun p => decide (M ≤ hitCount query_lower p.2))
          = ps.find? (fun p => decide (M ≤ hitCount query_lower p.2)) := by
        rw [List.find?_cons_of_neg]
        simp only [decide_eq_true_eq]
        exact Nat.not_le.mpr hpltM
      rw [hfind] at hq
      exact selectFold_first_attain query_lower ps b M hMps hlt q hq

/-- C9 (amended): when every specialised family has zero indicator hits,
`analyze_query` selects the general-purpose agent; but on a tie for the
maximum between two or more specialised families the *first* family in the
fixed iteration order (analytical, creative, technical, research, summary)
attaining the maximum is selected — not the general-purpose strategy. -/
theorem c9_zero_hits_general_tie_first_family (query : String) :
    ((∀ p ∈ agent_indicators, hitCount (strLower query) p.2 = 0) →
      (analyze_query query).agent_type = .general)
    ∧ (∀ q, 0 < maxFamilyHits (strLower query) →
        agent_indicators.find?
            (fun p => decide (maxFamilyHits (strLower query) ≤ hitCount (strLower query) p.2))
          = some q →
        (analyze_query query).agent_type = q.1) := by
  constructor
  · intro hzero
    show (selectAgent (strLower query)).1 = .general
    unfold selectAgent
    rw [selectFold_of_all_le (strLower query) agent_indicators (AgentType.general, 0)
      (fun p hp => le_of_eq (hzero p hp))]
  · intro q hpos hfind
    show (selectAgent (strLower query)).1 = q.1
    unfold selectAgent
    exact selectFold_first_attain (strLower query) agent_indicators (AgentType.general, 0)
      (maxFamilyHits (strLower query)) rfl hpos q hfind

/-- C9 counterexample: the query `"compare ideas"` has exactly one
indicator hit in each of the analytical (`"compare"`) and creative
(`"ideas"`) families — a tie for the maximum — yet `analyze_query` selects
the analytical strategy, not the general-purpose one. -/
theorem c9_counterexample :
    hitCount (strLower "compare ideas")
        ["analyze", "compare", "evaluate", "calculate", "statistics", "data"] = 1
    ∧ hitCount (strLower "compare ideas")
        ["creative", "innovative", "brainstorm", "ideas", "design", "concept"] = 1
    ∧ (analyze_query "compare ideas").agent_type = .analytical
    ∧ AgentType.analytical ≠ .general := by
  refine ⟨by decide, by decide, ?_, by decide⟩
  show (selectAgent (strLower "compare ideas")).1 = .analytical
  decide

/-- Witness for `c9_zero_hits_general_tie_first_family` at the tied query
`"compare ideas"`, whose first maximal family is the analytical one. -/
theorem c9_witness :
    0 < maxFamilyHits (strLower "compare ideas")
    ∧ (analyze_query "compare ideas").agent_type = AgentType.analytical :=
  ⟨by decide,
   (c9_zero_hits_general_tie_first_family "compare ideas").2
     (AgentType.analytical, ["analyze", "compare", "evaluate", "calculate", "statistics", "data"])
     (by decide) (by decide)⟩

/-- C10: for every query (including the empty string) the confidence
computed by `analyze_query` equals `min(0.9, hits/3 + 0.3)` where `hits`
is the winning (maximal) family indicator count, and therefore always lies
in `[0.3, 0.9]` — strictly inside the spec's declared `[0.0, 1.0]`. -/
theorem c10_confidence_formula_and_range (query : String) :
    (analyze_query query).confidence
      = min (0.9 : ℚ) ((maxFamilyHits (strLower query) : ℚ) / 3 + 0.3)
    ∧ (0.3 : ℚ) ≤ (analyze_query query).confidence
    ∧ (analyze_query query).confidence ≤ 0.9 := by
  have hsnd : (selectAgent (strLower query)).2 = maxFamilyHits (strLower query) := by
    unfold selectAgent maxFamilyHits
    exact selectFold_snd (strLower query) agent_indicators (AgentType.general, 0)
  have hconf : (analyze_query query).confidence
      = min (0.9 : ℚ) ((maxFamilyHits (strLower query) : ℚ) / 3 + 0.3) := by
    show min (0.9 : ℚ) (((selectAgent (strLower query)).2 : ℚ) / 3 + 0.3) = _
    rw [hsnd]
  refine ⟨hconf, ?_, ?_⟩
  · rw [hconf]
    refine le_min (by norm_num) ?_
    have hx : (0 : ℚ) ≤ (maxFamilyHits (strLower query) : ℚ) := Nat.cast_nonneg _
    linarith
  · rw [hconf]
    exact min_le_left _ _

/-! ### Tokenization lemmas for the context-budget claim -/

theorem takeWhile_of_all (p : Char → Bool) :
    ∀ l : List Char, (∀ c ∈ l, p c = true) → l.takeWhile p = l
  | [], _ => rfl
  | c :: cs, h => by
    rw [List.takeWhile_cons, if_pos (h c (List.mem_cons_self _ _))]
    rw [takeWhile_of_all p cs (fun d hd => h d (List.mem_cons_of_mem _ hd))]

theorem dropWhile_of_all (p : Char → Bool) :
    ∀ l : List Char, (∀ c ∈ l, p c = true) → l.dropWhile p = []
  | [], _ => rfl
  | c :: cs, h => by
    rw [List.dropWhile_cons, if_pos (h c (List.mem_cons_self _ _))]
    exact dropWhile_of_all p cs (fun d hd => h d (List.mem_cons_of_mem _ hd))

theorem takeWhile_append_sep (p : Char → Bool) (x : Char) (hx : p x = false)
    (r : List Char) :
    ∀ w : List Char, (∀ c ∈ w, p c = true) →
      (w ++ x :: r).takeWhile p = w ∧ (w ++ x :: r).dropWhile p = x :: r
  | [], _ => by simp [List.takeWhile_cons, List.dropWhile_cons, hx]
  | c :: w', h => by
    have hrec := takeWhile_append_sep p x hx r w'
      (fun d hd => h d (List.mem_cons_of_mem _ hd))
    constructor
    · rw [List.cons_append, List.takeWhile_cons, if_pos (h c (List.mem_cons_self _ _)), hrec.1]
    · rw [List.cons_append, List.dropWhile_cons, if_pos (h c (List.mem_cons_self _ _))]
      exact hrec.2

theorem pyRunsAux_acc (p : Char → Bool) :
    ∀ (l acc : List Char), acc ≠ [] →
      pyRunsAux p l acc = (acc.reverse ++ l.takeWhile p) :: pyRuns p (l.dropWhile p)
  | [], acc, h => by
    simp [pyRunsAux, pyRuns, List.isEmpty_iff, h]
  | c :: cs, acc, h => by
    by_cases hp : p c = true
    · rw [show pyRunsAux p (c :: cs) acc = pyRunsAux p cs (c :: acc) by
        simp [pyRunsAux, hp]]
      rw [pyRunsAux_acc p cs (c :: acc) (List.cons_ne_nil _ _)]
      simp [List.takeWhile_cons, List.dropWhile_cons, hp]
    · rw [show pyRunsAux p (c :: cs) acc = acc.reverse :: pyRunsAux p cs [] by
        simp [pyRunsAux, hp, List.isEmpty_iff, h]]
      have hpc : p c = false := by simpa using hp
      simp [List.takeWhile_cons, List.dropWhile_cons, hpc, pyRuns, pyRunsAux]

theorem pyRuns_cons_pos (p : Char → Bool) (c : Char) (cs : List Char) (hp : p c = true) :
    pyRuns p (c :: cs) = (c :: cs.takeWhile p) :: pyRuns p (cs.dropWhile p) := by
  rw [show pyRuns p (c :: cs) = pyRunsAux p cs [c] by simp [pyRuns, pyRunsAux, hp]]
  rw [pyRunsAux_acc p cs [c] (List.cons_ne_nil _ _)]
  rfl

theorem pyRuns_cons_neg (p : Char → Bool) (c : Char) (cs : List Char) (hp : p c = false) :
    pyRuns p (c :: cs) = pyRuns p cs := by
  simp [pyRuns, pyRunsAux, hp]

theorem pyRuns_all_pos (p : Char → Bool) (l : List Char) (hne : l ≠ [])
    (hall : ∀ c ∈ l, p c = true) : pyRuns p l = [l] := by
  cases l with
  | nil => exact absurd rfl hne
  | cons c cs =>
    rw [pyRuns_cons_pos p c cs (hall c (List.mem_cons_self _ _))]
    rw [takeWhile_of_all p cs (fun d hd => hall d (List.mem_cons_of_mem _ hd))]
    rw [dropWhile_of_all p cs (fun d hd => hall d (List.mem_cons_of_mem _ hd))]
    rfl

theorem pyRuns_append_sep (p : Char → Bool) (x : Char) (hx : p x = false)
    (w : List Char) (hne : w ≠ []) (hall : ∀ c ∈ w, p c = true) (rest : List Char) :
    pyRuns p (w ++ x :: rest) = w :: pyRuns p rest := by
  cases w with
  | nil => exact absurd rfl hne
  | cons c w' =>
    have hsep := takeWhile_append_sep p x hx rest w'
      (fun d hd => hall d (List.mem_cons_of_mem _ hd))
    rw [List.cons_append]
    rw [pyRuns_cons_pos p c _ (hall c (List.mem_cons_self _ _))]
    rw [hsep.1, hsep.2]
    rw [pyRuns_cons_neg p x _ hx]

/-- A word as produced (and consumed) by `pyWords`: non-empty with no
whitespace characters. -/
def goodWord (w : String) : Prop :=
  w.data ≠ [] ∧ ∀ c ∈ w.data, (!c.isWhitespace) = true

theorem pyRuns_good (p : Char → Bool) :
    ∀ l : List Char, ∀ r ∈ pyRuns p l, r ≠ [] ∧ ∀ c ∈ r, p c = true
  | [], r, hr => absurd hr (List.not_mem_nil _)
  | c :: cs, r, hr => by
    by_cases hp : p c = true
    · rw [pyRuns_cons_pos p c cs hp] at hr
      rcases List.mem_cons.mp hr with hr' | hr'
      · subst hr'
        refine ⟨List.cons_ne_nil _ _, fun d hd => ?_⟩
        rcases List.mem_cons.mp hd with hd' | hd'
        · exact hd' ▸ hp
        · exact List.mem_takeWhile_imp hd'
      · exact pyRuns_good p (cs.dropWhile p) r hr'
    · rw [pyRuns_cons_neg p c cs (by simpa using hp)] at hr
      exact pyRuns_good p cs r hr
termination_by l => l.length
decreasing_by
  · simpa using Nat.lt_succ_of_le (List.Sublist.length_le (List.dropWhile_sublist _))
  · simp

theorem pyWords_good (s : String) : ∀ w ∈ pyWords s, goodWord w := by
  intro w hw
  simp only [pyWords, List.mem_map] at hw
  obtain ⟨r, hr, hmk⟩ := hw
  have := pyRuns_good _ s.data r hr
  subst hmk
  exact ⟨this.1, this.2⟩

theorem string_mk_data (s : String) : String.mk s.data = s := rfl

theorem pyWords_joinSpace :
    ∀ ws : List String, (∀ w ∈ ws, goodWord w) → pyWords (joinSpace ws) = ws
  | [], _ => rfl
  | [w], h => by
    have hg := h w (List.mem_cons_self _ _)
    show (pyRuns (fun c => !c.isWhitespace) w.data).map String.mk = [w]
    rw [pyRuns_all_pos _ w.data hg.1 hg.2]
    simp [string_mk_data]
  | w :: w' :: ws', h => by
    have hg := h w (List.mem_cons_self _ _)
    show (pyRuns (fun c => !c.isWhitespace) (w ++ " " ++ joinSpace (w' :: ws')).data).map
        String.mk = w :: w' :: ws'
    have hdata : (w ++ " " ++ joinSpace (w' :: ws')).data
        = w.data ++ ' ' :: (joinSpace (w' :: ws')).data := by
      simp [String.data_append]
    rw [hdata]
    rw [pyRuns_append_sep _ ' ' (by decide) w.data hg.1 hg.2]
    rw [List.map_cons, string_mk_data]
    have := pyWords_joinSpace (w' :: ws') (fun u hu => h u (List.mem_cons_of_mem _ hu))
    simp only [pyWords] at this
    rw [this]

theorem count_tokens_joinSpace (ws : List String) (h : ∀ w ∈ ws, goodWord w) :
    count_tokens (joinSpace ws) = 13 * ws.length / 10 := by
  unfold count_tokens
  rw [pyWords_joinSpace ws h]

theorem joinSpace_cons_ne_nil (w : String) (l : List String) (h : l ≠ []) :
    joinSpace (w :: l) = w ++ " " ++ joinSpace l := by
  cases l with
  | nil => exact absurd rfl h
  | cons _ _ => rfl

theorem joinSpace_append_str :
    ∀ (ws : List String) (h : ws ≠ []) (t : String),
      joinSpace ws ++ t = joinSpace (ws.dropLast ++ [ws.getLast h ++ t])
  | [], h, _ => absurd rfl h
  | [w], _, t => rfl
  | w :: w' :: ws', _, t => by
    rw [joinSpace_cons_ne_nil w (w' :: ws') (List.cons_ne_nil _ _)]
    rw [String.append_assoc]
    rw [joinSpace_append_str (w' :: ws') (List.cons_ne_nil _ _) t]
    rw [List.dropLast_cons_of_ne_nil (List.cons_ne_nil _ _)]
    rw [List.getLast_cons (List.cons_ne_nil _ _)]
    rw [List.cons_append]
    rw [joinSpace_cons_ne_nil _ _ (by simp)]

theorem count_tokens_join_dots (ws : List String) (h : ∀ w ∈ ws, goodWord w)
    (m : Nat) (hm : 1 ≤ m) (hcount : 13 * ws.length / 10 ≤ m) :
    count_tokens (joinSpace ws ++ "...") ≤ m := by
  cases hws : ws with
  | nil =>
    show count_tokens (joinSpace [] ++ "...") ≤ m
    have : count_tokens ((joinSpace []) ++ "...") = 1 := by decide
    rw [this]
    exact hm
  | cons w ws' =>
    subst hws
    rw [joinSpace_append_str (w :: ws') (List.cons_ne_nil _ _) "..."]
    have hgood : ∀ u ∈ (w :: ws').dropLast ++ [(w :: ws').getLast (List.cons_ne_nil _ _) ++ "..."],
        goodWord u := by
      intro u hu
      rcases List.mem_append.mp hu with hu' | hu'
      · exact h u (List.dropLast_sublist _ |>.mem hu')
      · rw [List.mem_singleton] at hu'
        subst hu'
        have hlast := h _ (List.getLast_mem (List.cons_ne_nil _ _))
        refine ⟨by simp [String.data_append, hlast.1], ?_⟩
        intro c hc
        rw [String.data_append] at hc
        rcases List.mem_append.mp hc with hc' | hc'
        · exact hlast.2 c hc'
        · fin_cases hc' <;> decide
    rw [count_tokens_joinSpace _ hgood]
    have hlen : ((w :: ws').dropLast
        ++ [(w :: ws').getLast (List.cons_ne_nil _ _) ++ "..."]).length
        = (w :: ws').length := by
      rw [List.length_append, List.length_dropLast]
      simp
    rw [hlen]
    exact hcount

theorem bsearch_trunc_le (cnt : Nat → Nat) (m : Nat) :
    ∀ (fuel left right : Nat), right - left ≤ fuel → cnt left ≤ m →
      cnt (bsearch_trunc cnt m left right) ≤ m
  | 0, left, right, hfuel, hleft => by
    rw [bsearch_trunc.eq_def]
    rw [if_neg (by omega)]
    exact hleft
  | fuel + 1, left, right, hfuel, hleft => by
    rw [bsearch_trunc.eq_def]
    by_cases hlr : left < right
    · rw [if_pos hlr]
      by_cases hmid : cnt ((left + right + 1) / 2) ≤ m
      · rw [if_pos hmid]
        exact bsearch_trunc_le cnt m fuel _ right (by omega) hmid
      · rw [if_neg hmid]
        exact bsearch_trunc_le cnt m fuel left _ (by omega) hleft
    · rw [if_neg hlr]
      exact hleft

theorem count_truncate_le (s : String) (m : Nat) (hm : 1 ≤ m) :
    count_tokens (truncate_to_tokens s m) ≤ m := by
  unfold truncate_to_tokens
  by_cases hc : count_tokens s ≤ m
  · rw [if_pos hc]
    exact hc
  · rw [if_neg hc]
    have hgood : ∀ w ∈ (pyWords s).take
        (bsearch_trunc (fun k => count_tokens (joinSpace ((pyWords s).take k))) m 0
          (pyWords s).length), goodWord w :=
      fun w hw => pyWords_good s w (List.take_sublist _ _ |>.mem hw)
    refine count_tokens_join_dots _ hgood m hm ?_
    have hcnt0 : count_tokens (joinSpace ((pyWords s).take 0)) ≤ m := by
      simp [joinSpace, count_tokens, pyWords, pyRuns, pyRunsAux]
    have hb := bsearch_trunc_le (fun k => count_tokens (joinSpace ((pyWords s).take k))) m
      (pyWords s).length 0 (pyWords s).length (by omega) hcnt0
    rw [← count_tokens_joinSpace _ hgood]
    exact hb

/-! ### The context-budget claim -/

theorem context_loop_shape (budget : Nat) :
    ∀ (rs : List CtxDoc) (total : Nat), ∃ (n : Nat) (tail : List String),
      context_loop budget rs total
        = (rs.take n).map (fun r => format_entry r.title r.content) ++ tail
      ∧ tail.length ≤ 1
  | [], total => ⟨0, [], by simp [context_loop], by simp⟩
  | r :: rest, total => by
    simp only [context_loop]
    by_cases hover : budget < total + count_tokens (format_entry r.title r.content)
    · rw [if_pos hover]
      by_cases hrem : 100 < budget - total - 50
      · refine ⟨0, [format_entry r.title (truncate_to_tokens r.content (budget - total - 50))],
          ?_, by simp⟩
        rw [if_pos hrem]
        simp
      · refine ⟨0, [], ?_, by simp⟩
        rw [if_neg hrem]
        simp
    · rw [if_neg hover]
      obtain ⟨n, tail, heq, hlen⟩ := context_loop_shape budget rest
        (total + count_tokens (format_entry r.title r.content))
      exact ⟨n + 1, tail, by rw [heq]; simp, hlen⟩

/-- C6: the assembled context string never exceeds the configured
6000-token budget as measured by the engine's own token counter, and the
emitted parts are a prefix of whole formatted entries followed by at most
one (truncated) extra entry — no entry beyond the budget boundary appears. -/
theorem c6_context_budget_respected (search_results : List CtxDoc) :
    count_tokens (prepare_optimized_context search_results) ≤ max_context_tokens
    ∧ ∃ (n : Nat) (tail : List String),
        context_loop max_context_tokens search_results 0
          = (search_results.take n).map (fun r => format_entry r.title r.content) ++ tail
        ∧ tail.length ≤ 1 := by
  constructor
  · unfold prepare_optimized_context
    by_cases hempty : search_results.isEmpty = true
    · rw [if_pos hempty]
      show count_tokens "No relevant context found." ≤ 6000
      have : count_tokens "No relevant context found." = 5 := by decide
      rw [this]
      omega
    · rw [if_neg hempty]
      by_cases hfinal : max_context_tokens
          < count_tokens (String.intercalate "\n"
              (context_loop max_context_tokens search_results 0))
      · rw [if_pos hfinal]
        exact count_truncate_le _ max_context_tokens (by norm_num [max_context_tokens])
      · rw [if_neg hfinal]
        exact Nat.le_of_not_lt hfinal
  · exact context_loop_shape max_context_tokens search_results 0

/-! ### Score-bound lemmas for the similarity engine -/

theorem jaccard_mem_bounds (query_text : String) (documents : List Doc) (d : Doc) (s : ℝ)
    (h : (d, s) ∈ calculate_jaccard_similarity query_text documents) : 0 ≤ s ∧ s ≤ 1 := by
  simp only [calculate_jaccard_similarity] at h
  split at h
  · obtain ⟨d', _, heq⟩ := List.mem_map.mp h
    have hsnd := congrArg Prod.snd heq
    simp only at hsnd
    rw [← hsnd]
    exact ⟨le_refl 0, zero_le_one⟩
  · obtain ⟨d', _, heq⟩ := List.mem_map.mp h
    have hsnd := congrArg Prod.snd heq
    simp only at hsnd
    rw [← hsnd]
    by_cases h1 : (preprocess_text (doc_text d')).toFinset = ∅
    · simp [h1]
    · rw [if_neg h1]
      by_cases h2 : 0 < ((preprocess_text query_text).toFinset
          ∪ (preprocess_text (doc_text d')).toFinset).card
      · simp only [if_pos h2]
        constructor
        · positivity
        · rw [div_le_one (by exact_mod_cast h2)]
          exact_mod_cast Finset.card_le_card
            (le_trans Finset.inter_subset_left Finset.subset_union_left)
      · simp only [if_neg h2]
        exact ⟨le_refl 0, zero_le_one⟩

theorem cosine_similarity_bounds (keys : Finset String) (vec1 vec2 : String → ℝ)
    (hdot : 0 ≤ ∑ w ∈ keys, vec1 w * vec2 w) :
    0 ≤ cosine_similarity keys vec1 vec2 ∧ cosine_similarity keys vec1 vec2 ≤ 1 := by
  simp only [cosine_similarity]
  split
  · exact ⟨le_refl 0, zero_le_one⟩
  · next hne =>
    push_neg at hne
    have hm1 : 0 < Real.sqrt (∑ w ∈ keys, vec1 w * vec1 w) :=
      lt_of_le_of_ne (Real.sqrt_nonneg _) (Ne.symm hne.1)
    have hm2 : 0 < Real.sqrt (∑ w ∈ keys, vec2 w * vec2 w) :=
      lt_of_le_of_ne (Real.sqrt_nonneg _) (Ne.symm hne.2)
    constructor
    · exact div_nonneg hdot (le_of_lt (mul_pos hm1 hm2))
    · rw [div_le_one (mul_pos hm1 hm2)]
      have hcs := Real.sum_mul_le_sqrt_mul_sqrt keys vec1 vec2
      have h1 : ∑ w ∈ keys, vec1 w ^ 2 = ∑ w ∈ keys, vec1 w * vec1 w :=
        Finset.sum_congr rfl (fun w _ => pow_two (vec1 w))
      have h2 : ∑ w ∈ keys, vec2 w ^ 2 = ∑ w ∈ keys, vec2 w * vec2 w :=
        Finset.sum_congr rfl (fun w _ => pow_two (vec2 w))
      rw [h1, h2] at hcs
      exact hcs

theorem tf_idf_mem_bounds (query_text : String) (documents : List Doc) (d : Doc) (s : ℝ)
    (h : (d, s) ∈ calculate_tf_idf_similarity query_text documents) : 0 ≤ s ∧ s ≤ 1 := by
  simp only [calculate_tf_idf_similarity] at h
  split at h
  · exact absurd h (List.not_mem_nil _)
  · split at h
    · obtain ⟨d', _, heq⟩ := List.mem_map.mp h
      have hsnd := congrArg Prod.snd heq
      simp only at hsnd
      rw [← hsnd]
      exact ⟨le_refl 0, zero_le_one⟩
    · obtain ⟨d', hd', heq⟩ := List.mem_map.mp h
      have hsnd := congrArg Prod.snd heq
      simp only at hsnd
      rw [← hsnd]
      apply cosine_similarity_bounds
      apply Finset.sum_nonneg
      intro w _
      have hq : (0 : ℝ) ≤ ((preprocess_text query_text).count w : ℝ)
          / ((preprocess_text query_text).length : ℝ) := by positivity
      have hd : (0 : ℝ) ≤ (if (preprocess_text (doc_text d')).isEmpty = true then (0 : ℝ)
          else ((preprocess_text (doc_text d')).count w : ℝ)
            / ((preprocess_text (doc_text d')).length : ℝ)) := by
        split
        · exact le_refl 0
        · positivity
      set cq : ℝ := ((preprocess_text query_text).count w : ℝ)
        / ((preprocess_text query_text).length : ℝ)
      set cd : ℝ := (if (preprocess_text (doc_text d')).isEmpty = true then (0 : ℝ)
          else ((preprocess_text (doc_text d')).count w : ℝ)
            / ((preprocess_text (doc_text d')).length : ℝ))
      set f : ℝ := Real.log ((documents.length : ℝ)
        / (1 + (((documents.map (fun d => preprocess_text (doc_text d))).filter
            (fun ws => w ∈ ws)).length : ℝ)))
      have : cq * f * (cd * f) = (cq * cd) * (f * f) := by ring
      rw [this]
      exact mul_nonneg (mul_nonneg hq hd) (mul_self_nonneg f)

theorem title_similarity_bounds (query title : String) :
    0 ≤ title_similarity query title ∧ title_similarity query title ≤ 1 := by
  simp only [title_similarity]
  by_cases h1 : title = ""
  · simp [h1]
  · rw [if_neg h1]
    by_cases h2 : strHasSub (strLower title) (strLower query) = true
    · simp [h2]
    · rw [if_neg h2]
      by_cases h3 : (preprocess_text query).toFinset = ∅
          ∨ (preprocess_text title).toFinset = ∅
      · simp only [if_pos h3]
        exact ⟨le_refl 0, zero_le_one⟩
      · simp only [if_neg h3]
        push_neg at h3
        have hpos : 0 < ((preprocess_text query).toFinset.card : ℝ) := by
          have := Finset.card_pos.mpr (Finset.nonempty_iff_ne_empty.mpr h3.1)
          exact_mod_cast this
        constructor
        · positivity
        · rw [div_le_one hpos]
          exact_mod_cast Finset.card_le_card Finset.inter_subset_left

theorem content_word_similarity_bounds (query_words : List String) (content : String) :
    0 ≤ content_word_similarity query_words content
      ∧ content_word_similarity query_words content ≤ 1 := by
  simp only [content_word_similarity]
  by_cases h1 : content = "" ∨ query_words = []
  · simp [h1]
  · rw [if_neg h1]
    by_cases h2 : preprocess_text content = []
    · simp [h2]
    · simp only [if_neg h2]
      constructor
      · apply le_min _ zero_le_one
        have hlen : (0 : ℝ) < Real.sqrt ((preprocess_text content).length : ℝ) := by
          apply Real.sqrt_pos.mpr
          have : 0 < (preprocess_text content).length := List.length_pos.mpr h2
          exact_mod_cast this
        positivity
      · exact min_le_right _ _

theorem keyword_occurrence_similarity_bounds (query_words : List String) (content : String) :
    0 ≤ keyword_occurrence_similarity query_words content
      ∧ keyword_occurrence_similarity query_words content ≤ 1 := by
  simp only [keyword_occurrence_similarity]
  by_cases h1 : content = "" ∨ query_words = []
  · simp [h1]
  · rw [if_neg h1]
    by_cases h2 : strHasSub (strLower content) (joinSpace query_words) = true
    · simp [h2]
    · rw [if_neg h2]
      by_cases h3 : query_words.length = 0
      · simp only [if_pos h3]
        exact ⟨le_refl 0, zero_le_one⟩
      · simp only [if_neg h3]
        have hlenpos : (0 : ℝ) < (query_words.length : ℝ) := by
          have : 0 < query_words.length := Nat.pos_of_ne_zero h3
          exact_mod_cast this
        have hterm : ∀ w ∈ query_words,
            (0 : ℝ) ≤ (if strHasSub (strLower content) w = true then
                min ((countOccs (strLower content) w : ℝ) * 0.3) 1 else 0)
            ∧ (if strHasSub (strLower content) w = true then
                min ((countOccs (strLower content) w : ℝ) * 0.3) 1 else 0) ≤ 1 := by
          intro w _
          by_cases hw : strHasSub (strLower content) w = true
          · rw [if_pos hw]
            constructor
            · apply le_min _ zero_le_one
              positivity
            · exact min_le_right _ _
          · rw [if_neg hw]
            exact ⟨le_refl 0, zero_le_one⟩
        have hsum0 : (0 : ℝ) ≤ (query_words.map (fun w =>
            if strHasSub (strLower content) w = true then
              min ((countOccs (strLower content) w : ℝ) * 0.3) 1 else 0)).sum := by
          apply List.sum_nonneg
          intro a ha
          obtain ⟨w, hw, rfl⟩ := List.mem_map.mp ha
          exact (hterm w hw).1
        have hsumle : ∀ (l : List String), (∀ w ∈ l,
            (if strHasSub (strLower content) w = true then
              min ((countOccs (strLower content) w : ℝ) * 0.3) 1 else 0) ≤ 1) →
            (l.map (fun w =>
              if strHasSub (strLower content) w = true then
                min ((countOccs (strLower content) w : ℝ) * 0.3) 1 else 0)).sum
              ≤ (l.length : ℝ) := by
          intro l
          induction l with
          | nil => simp
          | cons w ws ih =>
            intro hall
            simp only [List.map_cons, List.sum_cons, List.length_cons]
            have h1 := hall w (List.mem_cons_self _ _)
            have h2 := ih (fun u hu => hall u (List.mem_cons_of_mem _ hu))
            push_cast
            push_cast at h2
            linarith
        constructor
        · exact div_nonneg hsum0 (le_of_lt hlenpos)
        · rw [div_le_one hlenpos]
          exact hsumle query_words (fun w hw => (hterm w hw).2)

theorem semantic_mem_bounds (query_text : String) (documents : List Doc) (d : Doc) (s : ℝ)
    (h : (d, s) ∈ calculate_semantic_similarity query_text documents) : 0 ≤ s ∧ s ≤ 1 := by
  simp only [calculate_semantic_similarity] at h
  split at h
  · obtain ⟨d', _, heq⟩ := List.mem_map.mp h
    have hsnd := congrArg Prod.snd heq
    simp only at hsnd
    rw [← hsnd]
    exact ⟨le_refl 0, zero_le_one⟩
  · obtain ⟨d', _, heq⟩ := List.mem_map.mp h
    have hsnd := congrArg Prod.snd heq
    simp only at hsnd
    rw [← hsnd]
    have ht := title_similarity_bounds query_text d'.title
    have hc := content_word_similarity_bounds (preprocess_text query_text) d'.content
    have hk := keyword_occurrence_similarity_bounds (preprocess_text query_text) d'.content
    constructor
    · have := ht.1
      have := hc.1
      have := hk.1
      positivity
    · nlinarith [ht.1, ht.2, hc.1, hc.2, hk.1, hk.2]

theorem score_at_bounds (l : List (Doc × ℝ)) (i : Nat)
    (hmem : ∀ d s, (d, s) ∈ l → 0 ≤ s ∧ s ≤ 1) :
    0 ≤ score_at l i ∧ score_at l i ≤ 1 := by
  unfold score_at
  cases hget : l[i]? with
  | none => exact ⟨le_refl 0, zero_le_one⟩
  | some x =>
    have hx : x ∈ l := List.getElem?_mem hget
    exact hmem x.1 x.2 hx

theorem hybrid_mem_bounds (query_text : String) (documents : List Doc) (d : Doc) (s : ℝ)
    (h : (d, s) ∈ calculate_hybrid_similarity query_text documents) : 0 ≤ s ∧ s ≤ 1 := by
  simp only [calculate_hybrid_similarity] at h
  split at h
  · exact absurd h (List.not_mem_nil _)
  · obtain ⟨p, _, heq⟩ := List.mem_map.mp h
    have hsnd := congrArg Prod.snd heq
    simp only at hsnd
    rw [← hsnd]
    have ht := score_at_bounds (calculate_tf_idf_similarity query_text documents) p.1
      (fun d' s' h' => tf_idf_mem_bounds query_text documents d' s' h')
    have hj := score_at_bounds (calculate_jaccard_similarity query_text documents) p.1
      (fun d' s' h' => jaccard_mem_bounds query_text documents d' s' h')
    have hs := score_at_bounds (calculate_semantic_similarity query_text documents) p.1
      (fun d' s' h' => semantic_mem_bounds query_text documents d' s' h')
    constructor
    · have := ht.1
      have := hj.1
      have := hs.1
      positivity
    · nlinarith [ht.1, ht.2, hj.1, hj.2, hs.1, hs.2]

/-- C2: for every query, document collection and algorithm (`tfidf`,
`jaccard`, `hybrid`, or the semantic default), every score produced by
`SimilarityEngine.calculate_similarity` lies in `[0, 1]`. -/
theorem c2_scores_in_unit_interval (query_text : String) (documents : List Doc)
    (algorithm : String) (d : Doc) (s : ℝ)
    (h : (d, s) ∈ calculate_similarity query_text documents algorithm) :
    0 ≤ s ∧ s ≤ 1 := by
  unfold calculate_similarity at h
  split at h
  · exact tf_idf_mem_bounds query_text documents d s h
  · split at h
    · exact jaccard_mem_bounds query_text documents d s h
    · split at h
      · exact hybrid_mem_bounds query_text documents d s h
      · exact semantic_mem_bounds query_text documents d s h

/-- Witness for `c2_scores_in_unit_interval`: the Jaccard algorithm on a
stop-word query scores the single document `0`, which lies in `[0, 1]`. -/
theorem c2_witness : (0 : ℝ) ≤ 0 ∧ (0 : ℝ) ≤ 1 :=
  c2_scores_in_unit_interval "the" [{ id := "1", title := "t", content := "c" }] "jaccard"
    { id := "1", title := "t", content := "c" } 0 (by
      have hpre : preprocess_text "the" = [] := by decide
      unfold calculate_similarity
      rw [if_neg (by decide), if_pos rfl]
      unfold calculate_jaccard_similarity
      rw [hpre]
      simp)
